import Mathlib

/-!
Verification of the client-side core of the Raise SDK (zemyth-app/raise).

The definitions below are shallow embeddings of the TypeScript source:

* src/unnamed/part_002 (constants module): findTierIndex;
* src/src/utils/index.ts: bpsToPercent, percentToBps, percentageOf,
  validateMilestonePercentages;
* src/src/instructions/index.ts: deadline constants, calculateDeadline,
  validateDeadline, and the PDA seed construction of getProjectPDA,
  getMilestonePDA, getInvestmentPDA, getVotePDA;
* src/src/errors/index.ts: the ERROR_CODES taxonomy.

JavaScript bigint values are embedded as Int (bigint division truncates
toward zero, embedded as Int.tdiv); JavaScript number values used as exact
quantities (percentages, timestamps, indices) are embedded as Rat, Int or
Nat as appropriate.  Program-derived addresses are the SHA-256 image of the
concatenated seed bytes; the hash is injective for the purposes of the
protocol, so an address is modelled by its pre-image: the concatenated
seed byte list.
-/

namespace Raise

/-! ## Tier matching (src/unnamed/part_002, findTierIndex) -/

/-- A tier as consumed by findTierIndex: the source takes
an array of objects and reads only the per-lot amount field (a bigint). -/
structure TierCfg where
  amount : Int
deriving DecidableEq, Repr

/-- The loop body of findTierIndex: for (let i = tiers.length - 1; i >= 0; i--)
with early return; the fuel argument is the exclusive upper bound of the
indices left to scan, so the first call uses tiers.length. -/
def findTierIndexFrom (tiers : List TierCfg) (amount : Int) : Nat → Option Nat
  | 0 => none
  | i + 1 =>
    match tiers.get? i with
    | some t => if t.amount ≤ amount then some i else findTierIndexFrom tiers amount i
    | none => findTierIndexFrom tiers amount i

/-- findTierIndex(tiers, amount): scan from the highest index downward and
return the first index whose amount threshold is met, else null. -/
def findTierIndex (tiers : List TierCfg) (amount : Int) : Option Nat :=
  findTierIndexFrom tiers amount tiers.length

/-- Index j of the tier list qualifies for the given investment amount. -/
def qualifiesAt (tiers : List TierCfg) (amount : Int) (j : Nat) : Prop :=
  ∃ t, tiers.get? j = some t ∧ t.amount ≤ amount

/-- The tier list is sorted ascending by per-lot amount. -/
def tiersSortedAsc (tiers : List TierCfg) : Prop :=
  List.Pairwise (fun a b => a.amount ≤ b.amount) tiers

instance (tiers : List TierCfg) : Decidable (tiersSortedAsc tiers) := by
  unfold tiersSortedAsc; infer_instance

lemma findTierIndexFrom_eq_none (tiers : List TierCfg) (amount : Int) :
    ∀ n, findTierIndexFrom tiers amount n = none ↔
      ∀ j, j < n → ∀ t, tiers.get? j = some t → amount < t.amount := by
  intro n
  induction n with
  | zero => simp [findTierIndexFrom]
  | succ i ih =>
    unfold findTierIndexFrom
    cases hg : tiers.get? i with
    | none =>
      rw [ih]
      constructor
      · intro h j hj t ht
        rcases Nat.lt_succ_iff_lt_or_eq.mp hj with hj' | rfl
        · exact h j hj' t ht
        · rw [hg] at ht; cases ht
      · intro h j hj t ht
        exact h j (Nat.lt_succ_of_lt hj) t ht
    | some t =>
      by_cases hle : t.amount ≤ amount
      · simp only [hle, if_pos]
        constructor
        · intro h; cases h
        · intro h
          exact absurd (h i (Nat.lt_succ_self i) t hg) (not_lt.mpr hle)
      · simp only [hle, if_neg, not_false_iff]
        rw [ih]
        constructor
        · intro h j hj u hu
          rcases Nat.lt_succ_iff_lt_or_eq.mp hj with hj' | rfl
          · exact h j hj' u hu
          · rw [hg] at hu
            cases hu
            exact lt_of_not_le hle
        · intro h j hj u hu
          exact h j (Nat.lt_succ_of_lt hj) u hu

lemma findTierIndexFrom_eq_some (tiers : List TierCfg) (amount : Int) :
    ∀ n i, findTierIndexFrom tiers amount n = some i →
      i < n ∧ qualifiesAt tiers amount i ∧
        ∀ j, i < j → j < n → ∀ t, tiers.get? j = some t → amount < t.amount := by
  intro n
  induction n with
  | zero => intro i h; cases h
  | succ m ih =>
    intro i h
    unfold findTierIndexFrom at h
    cases hg : tiers.get? m with
    | none =>
      rw [hg] at h
      obtain ⟨hlt, hq, hmax⟩ := ih i h
      refine ⟨Nat.lt_succ_of_lt hlt, hq, ?_⟩
      intro j hij hj t ht
      rcases Nat.lt_succ_iff_lt_or_eq.mp hj with hj' | rfl
      · exact hmax j hij hj' t ht
      · rw [hg] at ht; cases ht
    | some t =>
      rw [hg] at h
      by_cases hle : t.amount ≤ amount
      · simp only [hle, if_pos, Option.some.injEq] at h
        subst h
        refine ⟨Nat.lt_succ_self m, ⟨t, hg, hle⟩, ?_⟩
        intro j hij hj u hu
        omega
      · simp only [hle, if_neg, not_false_iff] at h
        obtain ⟨hlt, hq, hmax⟩ := ih i h
        refine ⟨Nat.lt_succ_of_lt hlt, hq, ?_⟩
        intro j hij hj u hu
        rcases Nat.lt_succ_iff_lt_or_eq.mp hj with hj' | rfl
        · exact hmax j hij hj' u hu
        · rw [hg] at hu
          cases hu
          exact lt_of_not_le hle

lemma below_head_not_qualifies (tiers : List TierCfg) (amount : Int)
    (hsort : tiersSortedAsc tiers)
    (hhead : ∀ t, tiers.get? 0 = some t → amount < t.amount) :
    ∀ j, j < tiers.length → ∀ t, tiers.get? j = some t → amount < t.amount := by
  intro j hj t ht
  rcases Nat.eq_zero_or_pos j with rfl | hpos
  · exact hhead t ht
  · have h0 : 0 < tiers.length := Nat.lt_of_lt_of_le hpos (Nat.le_of_lt hj)
    have ht0 : tiers.get? 0 = some (tiers.get ⟨0, h0⟩) := List.get?_eq_get h0
    have hlt0 : amount < (tiers.get ⟨0, h0⟩).amount := hhead _ ht0
    have htj : tiers.get ⟨j, hj⟩ = t := by
      have := List.get?_eq_get hj
      rw [ht] at this
      exact (Option.some.inj this).symm
    have hrel := List.pairwise_iff_get.mp hsort ⟨0, h0⟩ ⟨j, hj⟩ hpos
    rw [htj] at hrel
    exact lt_of_lt_of_le hlt0 hrel

end Raise

namespace Raise

/-- C1: for a tier list sorted ascending by per-lot amount, findTierIndex
returns the largest index whose amount threshold is at most the investment
amount (the downward scan stops at the first, i.e. highest, qualifying
index), and returns null exactly when the amount is below the smallest
(first) tier's amount. -/
theorem findTierIndex_correct (tiers : List TierCfg) (amount : Int)
    (hsort : tiersSortedAsc tiers) :
    (∀ i, findTierIndex tiers amount = some i →
      i < tiers.length ∧ qualifiesAt tiers amount i ∧
        ∀ j, qualifiesAt tiers amount j → j ≤ i) ∧
    (findTierIndex tiers amount = none ↔
      ∀ t, tiers.get? 0 = some t → amount < t.amount) := by
  constructor
  · intro i h
    obtain ⟨hlt, hq, hmax⟩ := findTierIndexFrom_eq_some tiers amount tiers.length i h
    refine ⟨hlt, hq, ?_⟩
    rintro j ⟨u, hu, hule⟩
    by_contra hji
    have hij : i < j := Nat.lt_of_not_le (fun hle => hji hle)
    have hjlen : j < tiers.length := (List.get?_eq_some.mp hu).1
    exact absurd hule (not_le.mpr (hmax j hij hjlen u hu))
  · rw [findTierIndex, findTierIndexFrom_eq_none]
    constructor
    · intro h t ht
      have h0 : 0 < tiers.length := (List.get?_eq_some.mp ht).1
      exact h 0 h0 t ht
    · intro h
      exact below_head_not_qualifies tiers amount hsort h

/-- Witness for C1: tiers with amounts 100, 500, 1000 and amount 750 give
index 1, which qualifies and dominates every qualifying index. -/
theorem findTierIndex_correct_witness :
    tiersSortedAsc [TierCfg.mk 100, TierCfg.mk 500, TierCfg.mk 1000] ∧
    findTierIndex [TierCfg.mk 100, TierCfg.mk 500, TierCfg.mk 1000] 750 = some 1 ∧
    (qualifiesAt [TierCfg.mk 100, TierCfg.mk 500, TierCfg.mk 1000] 750 1 ∧
      ∀ j, qualifiesAt [TierCfg.mk 100, TierCfg.mk 500, TierCfg.mk 1000] 750 j → j ≤ 1) :=
  ⟨by decide, by decide,
    ((findTierIndex_correct [TierCfg.mk 100, TierCfg.mk 500, TierCfg.mk 1000] 750
      (by decide)).1 1 (by decide)).2⟩

/-! ## PDA seed construction (src/src/instructions/index.ts and the SEEDS
constants of src/unnamed/part_002)

findProgramAddressSync hashes the plain concatenation of the seed buffers
(plus bump and program id); an address is modelled by the concatenated
seed byte list it is derived from.  Buffer.from([x]) converts each array
element with ToUint8 semantics, i.e. the value is taken modulo 256 with no
validation; BN.toArrayLike(Buffer, le, 8) throws when the value does not
fit in 8 bytes. -/

namespace SEEDS

def PROJECT : String := "project"

def MILESTONE : String := "milestone"

def INVESTMENT : String := "investment"

def VOTE : String := "vote"

end SEEDS

/-- UTF-8 bytes of an ASCII seed string (all SEEDS constants are ASCII). -/
def seedBytes (s : String) : List Nat :=
  s.data.map Char.toNat

/-- Little-endian fixed-width byte encoding (width in bytes first). -/
def leBytes : Nat → Nat → List Nat
  | 0, _ => []
  | n + 1, v => v % 256 :: leBytes n (v / 256)

/-- getProjectPDA seed bytes: prefix "project" and the 8-byte little-endian
project id; BN.toArrayLike throws (none) when the id needs more than
8 bytes. -/
def getProjectPDASeeds (projectId : Nat) : Option (List Nat) :=
  if projectId < 2 ^ 64 then some (seedBytes SEEDS.PROJECT ++ leBytes 8 projectId)
  else none

/-- getMilestonePDA seed bytes: prefix "milestone", the project address and
one byte Buffer.from([milestoneIndex]), which coerces the index modulo
256. -/
def getMilestonePDASeeds (projectPda : List Nat) (milestoneIndex : Nat) : List Nat :=
  seedBytes SEEDS.MILESTONE ++ projectPda ++ [milestoneIndex % 256]

/-- getInvestmentPDA seed bytes: prefix "investment", the project address
and the NFT mint address. -/
def getInvestmentPDASeeds (projectPda : List Nat) (nftMint : List Nat) : List Nat :=
  seedBytes SEEDS.INVESTMENT ++ projectPda ++ nftMint

/-- getVotePDA seed bytes: prefix "vote", the milestone address, the voter
key and one byte Buffer.from([votingRound]), coerced modulo 256. -/
def getVotePDASeeds (milestonePda : List Nat) (voterKey : List Nat)
    (votingRound : Nat) : List Nat :=
  seedBytes SEEDS.VOTE ++ milestonePda ++ voterKey ++ [votingRound % 256]

/-- C2: a milestone derivation and an investment derivation never produce
the same seed byte sequence, whatever project addresses, milestone index
and mint address are supplied, because the kind-specific textual prefixes
"milestone" and "investment" differ from their first byte on. -/
theorem milestone_investment_seeds_distinct (projectPda projectPda2 nftMint : List Nat)
    (milestoneIndex : Nat) :
    getMilestonePDASeeds projectPda milestoneIndex ≠
      getInvestmentPDASeeds projectPda2 nftMint := by
  intro h
  have h1 : seedBytes SEEDS.MILESTONE =
      109 :: [105, 108, 101, 115, 116, 111, 110, 101] := by decide
  have h2 : seedBytes SEEDS.INVESTMENT =
      105 :: [110, 118, 101, 115, 116, 109, 101, 110, 116] := by decide
  rw [getMilestonePDASeeds, getInvestmentPDASeeds, h1, h2] at h
  simp only [List.cons_append, List.cons.injEq] at h
  exact absurd h.1 (by decide)

/-- Counterexample for C3: deriving a milestone address with index 256,
which does not fit in 1 byte, does not fail at all — it silently yields the
same seed bytes as index 0. -/
theorem milestone_seed_overflow_coerced :
    getMilestonePDASeeds [] 256 = getMilestonePDASeeds [] 0 ∧ (256 : Nat) ≠ 0 := by
  constructor
  · decide
  · decide

/-- C3 (amended): 1-byte seeds are silently coerced modulo 256 (milestone
index and voting round), so out-of-width indices never raise an error;
only the 8-byte little-endian identifier encoding fails (by throwing, not
with a MalformedSeed error) exactly when the id does not fit in 8 bytes. -/
theorem pda_seed_width_handling (projectPda milestonePda voterKey : List Nat)
    (milestoneIndex votingRound projectId : Nat) :
    getMilestonePDASeeds projectPda milestoneIndex =
      getMilestonePDASeeds projectPda (milestoneIndex % 256) ∧
    getVotePDASeeds milestonePda voterKey votingRound =
      getVotePDASeeds milestonePda voterKey (votingRound % 256) ∧
    ((getProjectPDASeeds projectId).isSome ↔ projectId < 2 ^ 64) := by
  refine ⟨?_, ?_, ?_⟩
  · simp only [getMilestonePDASeeds, List.append_cancel_left_eq]
    have : milestoneIndex % 256 % 256 = milestoneIndex % 256 := Nat.mod_mod_of_dvd _ dvd_rfl
    rw [this]
  · simp only [getVotePDASeeds, List.append_cancel_left_eq]
    have : votingRound % 256 % 256 = votingRound % 256 := Nat.mod_mod_of_dvd _ dvd_rfl
    rw [this]
  · unfold getProjectPDASeeds
    by_cases h : projectId < 2 ^ 64 <;> simp [h]

/-! ## Percentage utilities (src/src/utils/index.ts)

Percentages and basis points are JavaScript numbers, embedded as exact
rationals; amounts are bigint, embedded as Int.  BigInt division truncates
toward zero, which is Int.tdiv. -/

/-- bpsToPercent(bps): bps / 10000. -/
def bpsToPercent (bps : ℚ) : ℚ :=
  bps / 10000

/-- percentToBps(percent): Math.floor(percent * 10000). -/
def percentToBps (percent : ℚ) : Int :=
  ⌊percent * 10000⌋

/-- percentageOf(amount, percentage):
(amount * BigInt(Math.floor(percentage * 100))) / 10000n, with BigInt
division truncating toward zero. -/
def percentageOf (amount : Int) (percentage : ℚ) : Int :=
  Int.tdiv (amount * ⌊percentage * 100⌋) 10000

/-- C4: percentToBps is floor(p * 10000), bpsToPercent is b / 10000, and
for a non-negative amount and percentage percentageOf is
floor(amount * floor(pct * 100) / 10000); the floored results truncate and
never exceed the exact values. -/
theorem percent_conversions_truncate (p b : ℚ) (amount : Int) (pct : ℚ)
    (hamount : 0 ≤ amount) (hpct : 0 ≤ pct) :
    percentToBps p = ⌊p * 10000⌋ ∧
    bpsToPercent b = b / 10000 ∧
    percentageOf amount pct = ⌊((amount * ⌊pct * 100⌋ : Int) : ℚ) / 10000⌋ ∧
    (percentToBps p : ℚ) ≤ p * 10000 ∧
    (percentageOf amount pct : ℚ) ≤ ((amount * ⌊pct * 100⌋ : Int) : ℚ) / 10000 := by
  have hfloor : (0 : Int) ≤ ⌊pct * 100⌋ := by
    apply Int.floor_nonneg.mpr
    positivity
  have hnum : (0 : Int) ≤ amount * ⌊pct * 100⌋ := mul_nonneg hamount hfloor
  have hpo : percentageOf amount pct = ⌊((amount * ⌊pct * 100⌋ : Int) : ℚ) / 10000⌋ := by
    unfold percentageOf
    rw [Int.tdiv_eq_ediv hnum (by norm_num)]
    have := Rat.floor_intCast_div_natCast (amount * ⌊pct * 100⌋) 10000
    rw [show (((10000 : ℕ) : ℚ)) = (10000 : ℚ) by norm_num,
      show (((10000 : ℕ) : ℤ)) = (10000 : ℤ) by norm_num] at this
    exact this.symm
  refine ⟨rfl, rfl, hpo, Int.floor_le _, ?_⟩
  rw [hpo]
  exact Int.floor_le _

/-- Witness for C4 at p = 1/2, b = 100, amount = 1000, pct = 30. -/
theorem percent_conversions_truncate_witness :
    percentToBps (1 / 2) = ⌊(1 / 2 : ℚ) * 10000⌋ ∧
    bpsToPercent 100 = 100 / 10000 ∧
    percentageOf 1000 30 = ⌊((1000 * ⌊(30 : ℚ) * 100⌋ : Int) : ℚ) / 10000⌋ ∧
    (percentToBps (1 / 2) : ℚ) ≤ (1 / 2 : ℚ) * 10000 ∧
    (percentageOf 1000 30 : ℚ) ≤ ((1000 * ⌊(30 : ℚ) * 100⌋ : Int) : ℚ) / 10000 :=
  percent_conversions_truncate (1 / 2) 100 1000 30 (by decide) (by norm_num)

/-- C5: the truncating round trip bpsToPercent(percentToBps(p)) never
exceeds p. -/
theorem bps_roundtrip_le (p : ℚ) :
    bpsToPercent ((percentToBps p : Int) : ℚ) ≤ p := by
  unfold bpsToPercent percentToBps
  rw [div_le_iff₀ (by norm_num : (0 : ℚ) < 10000)]
  exact Int.floor_le _

/-! ## Milestone percentage validation (src/src/utils/index.ts) -/

/-- validateMilestonePercentages(percentages):
percentages.reduce((acc, p) => acc + p, 0) === 100. -/
def validateMilestonePercentages (percentages : List Int) : Bool :=
  List.foldl (fun acc p => acc + p) 0 percentages == 100

lemma foldl_add_eq_sum (ps : List Int) :
    ∀ a : Int, List.foldl (fun acc p => acc + p) a ps = a + ps.sum := by
  induction ps with
  | nil => intro a; simp
  | cons x xs ih =>
    intro a
    simp only [List.foldl_cons, List.sum_cons, ih]
    ring

/-- C8: validation passes exactly when the percentages sum to 100;
[30, 40, 30] passes and [30, 40, 20] fails. -/
theorem validateMilestonePercentages_correct :
    (∀ ps : List Int, validateMilestonePercentages ps = true ↔ ps.sum = 100) ∧
    validateMilestonePercentages [30, 40, 30] = true ∧
    validateMilestonePercentages [30, 40, 20] = false := by
  refine ⟨fun ps => ?_, by decide, by decide⟩
  unfold validateMilestonePercentages
  rw [foldl_add_eq_sum ps 0, beq_iff_eq, zero_add]

/-! ## Deadline helpers (src/src/instructions/index.ts)

The source reads the current time through Date.now(); the embedding passes
the current Unix time in seconds explicitly, so validateDeadline and
calculateDeadline are evaluated at one shared instant. -/

/-- Minimum deadline duration in production mode (7 days). -/
def MIN_DEADLINE_DURATION_SECONDS_PROD : Int := 604800

/-- Minimum deadline duration in development mode (60 seconds). -/
def MIN_DEADLINE_DURATION_SECONDS_DEV : Int := 60

/-- Maximum deadline duration (1 year). -/
def MAX_DEADLINE_DURATION_SECONDS : Int := 31536000

/-- Result shape of validateDeadline. -/
structure ValidationResult where
  valid : Bool
  error : Option String
deriving DecidableEq, Repr

/-- The mode-dependent minimum duration picked inside the helpers. -/
def minDurationFor (isDev : Bool) : Int :=
  if isDev then MIN_DEADLINE_DURATION_SECONDS_DEV else MIN_DEADLINE_DURATION_SECONDS_PROD

/-- validateDeadline(deadline, isDev) at current time nowSeconds. -/
def validateDeadline (nowSeconds deadlineSeconds : Int) (isDev : Bool) : ValidationResult :=
  let minDuration := minDurationFor isDev
  let minDeadlineAllowed := nowSeconds + minDuration
  let maxDeadlineAllowed := nowSeconds + MAX_DEADLINE_DURATION_SECONDS
  if deadlineSeconds < minDeadlineAllowed then
    { valid := false,
      error := some (String.append (String.append "Deadline must be at least "
        (if isDev then "60 seconds" else "7 days")) " from now") }
  else if deadlineSeconds > maxDeadlineAllowed then
    { valid := false, error := some "Deadline must be within 1 year from now" }
  else
    { valid := true, error := none }

/-- calculateDeadline(daysFromNow, isDev) at current time nowSeconds:
now + max(daysFromNow * 24 * 60 * 60, minDuration), capped at
now + MAX_DEADLINE_DURATION_SECONDS. -/
def calculateDeadline (nowSeconds daysFromNow : Int) (isDev : Bool) : Int :=
  let minDuration := minDurationFor isDev
  let daysInSeconds := daysFromNow * 24 * 60 * 60
  let deadlineSeconds := nowSeconds + max daysInSeconds minDuration
  min deadlineSeconds (nowSeconds + MAX_DEADLINE_DURATION_SECONDS)

lemma validateDeadline_eq_low (now deadline : Int) (isDev : Bool)
    (h : deadline < now + minDurationFor isDev) :
    validateDeadline now deadline isDev =
      { valid := false,
        error := some (String.append (String.append "Deadline must be at least "
          (if isDev then "60 seconds" else "7 days")) " from now") } := by
  simp only [validateDeadline]
  rw [if_pos h]

lemma validateDeadline_eq_high (now deadline : Int) (isDev : Bool)
    (h1 : ¬deadline < now + minDurationFor isDev)
    (h2 : deadline > now + MAX_DEADLINE_DURATION_SECONDS) :
    validateDeadline now deadline isDev =
      { valid := false, error := some "Deadline must be within 1 year from now" } := by
  simp only [validateDeadline]
  rw [if_neg h1, if_pos h2]

lemma validateDeadline_eq_ok (now deadline : Int) (isDev : Bool)
    (h1 : ¬deadline < now + minDurationFor isDev)
    (h2 : ¬deadline > now + MAX_DEADLINE_DURATION_SECONDS) :
    validateDeadline now deadline isDev = { valid := true, error := none } := by
  simp only [validateDeadline]
  rw [if_neg h1, if_neg h2]

lemma minDurationFor_le_max (isDev : Bool) :
    minDurationFor isDev ≤ MAX_DEADLINE_DURATION_SECONDS := by
  cases isDev <;> decide

/-- C6: validateDeadline reports valid exactly when the deadline lies
between now plus the mode-dependent minimum duration (604800 s production,
60 s development) and now plus one year (31536000 s); a deadline below the
minimum yields the minimum-duration error message and one above the
maximum yields the one-year error message. -/
theorem validateDeadline_correct (now deadline : Int) (isDev : Bool) :
    ((validateDeadline now deadline isDev).valid = true ↔
      now + minDurationFor isDev ≤ deadline ∧
        deadline ≤ now + MAX_DEADLINE_DURATION_SECONDS) ∧
    (deadline < now + minDurationFor isDev →
      validateDeadline now deadline isDev =
        { valid := false,
          error := some (String.append (String.append "Deadline must be at least "
            (if isDev then "60 seconds" else "7 days")) " from now") }) ∧
    (now + MAX_DEADLINE_DURATION_SECONDS < deadline →
      validateDeadline now deadline isDev =
        { valid := false, error := some "Deadline must be within 1 year from now" }) := by
  have hmm := minDurationFor_le_max isDev
  by_cases h1 : deadline < now + minDurationFor isDev
  · refine ⟨?_, fun _ => validateDeadline_eq_low now deadline isDev h1, fun hgt => ?_⟩
    · rw [validateDeadline_eq_low now deadline isDev h1]
      constructor
      · intro hv; exact Bool.noConfusion hv
      · intro hb; exact absurd hb.1 (by omega)
    · exact absurd hgt (by omega)
  · by_cases h2 : deadline > now + MAX_DEADLINE_DURATION_SECONDS
    · refine ⟨?_, fun hlt => absurd hlt h1,
        fun _ => validateDeadline_eq_high now deadline isDev h1 h2⟩
      rw [validateDeadline_eq_high now deadline isDev h1 h2]
      constructor
      · intro hv; exact Bool.noConfusion hv
      · intro hb; exact absurd hb.2 (by omega)
    · refine ⟨?_, fun hlt => absurd hlt h1, fun hgt => absurd hgt h2⟩
      rw [validateDeadline_eq_ok now deadline isDev h1 h2]
      exact iff_of_true rfl ⟨by omega, by omega⟩

/-- Witness for C6 at now = 0, production mode: deadline 604800 is valid,
604799 fails with the 7-day message, 31536001 fails with the 1-year
message. -/
theorem validateDeadline_correct_witness :
    (validateDeadline 0 604800 false).valid = true ∧
    validateDeadline 0 604799 false =
      { valid := false,
        error := some (String.append (String.append "Deadline must be at least "
          (if false then "60 seconds" else "7 days")) " from now") } ∧
    validateDeadline 0 31536001 false =
      { valid := false, error := some "Deadline must be within 1 year from now" } :=
  ⟨(validateDeadline_correct 0 604800 false).1.mpr (by decide),
   (validateDeadline_correct 0 604799 false).2.1 (by decide),
   (validateDeadline_correct 0 31536001 false).2.2 (by decide)⟩

/-- C10: for non-negative daysFromNow, calculateDeadline clamps into
[now + minimum duration, now + 31536000] and therefore always passes
validateDeadline evaluated at the same current time and mode. -/
theorem calculateDeadline_validates (now daysFromNow : Int) (isDev : Bool)
    (hd : 0 ≤ daysFromNow) :
    (validateDeadline now (calculateDeadline now daysFromNow isDev) isDev).valid = true ∧
    now + minDurationFor isDev ≤ calculateDeadline now daysFromNow isDev ∧
    calculateDeadline now daysFromNow isDev ≤ now + MAX_DEADLINE_DURATION_SECONDS := by
  have hmm := minDurationFor_le_max isDev
  have hlb : now + minDurationFor isDev ≤ calculateDeadline now daysFromNow isDev := by
    simp only [calculateDeadline]
    omega
  have hub : calculateDeadline now daysFromNow isDev ≤ now + MAX_DEADLINE_DURATION_SECONDS := by
    simp only [calculateDeadline]
    omega
  refine ⟨?_, hlb, hub⟩
  rw [validateDeadline_eq_ok now (calculateDeadline now daysFromNow isDev) isDev
    (by omega) (by omega)]

/-- Witness for C10 at now = 0, daysFromNow = 30, production mode. -/
theorem calculateDeadline_validates_witness :
    ((validateDeadline 0 (calculateDeadline 0 30 false) false).valid = true ∧
      0 + minDurationFor false ≤ calculateDeadline 0 30 false ∧
      calculateDeadline 0 30 false ≤ 0 + MAX_DEADLINE_DURATION_SECONDS) ∧
    calculateDeadline 0 30 false = 2592000 :=
  ⟨calculateDeadline_validates 0 30 false (by decide), by decide⟩

/-! ## Milestone deadline extension rule -/

/-- Modelled from the spec: the milestone record's deadline and extension
count (spec section 3: extensionCount is at most 3).  The repository only
wraps the extendMilestoneDeadline instruction (src/src/instructions/
index.ts, documented as at most 3 extensions, called before the current
deadline passes, new deadline strictly later); the enforcing ledger
program is not in the repository. -/
structure MilestoneState where
  deadline : Int
  extensionCount : Nat
deriving DecidableEq, Repr

/-- Modelled from the spec: the failure conditions of a deadline
extension, including the deadline-extension-exhausted condition of the
error taxonomy. -/
inductive ExtendError where
  | deadlineExtensionsExhausted
  | deadlineAlreadyPassed
  | newDeadlineNotLater
deriving DecidableEq, Repr

/-- Modelled from the spec: extend a milestone deadline at current time
now — forward-only, only while the current deadline is still in the
future, at most three times per milestone. -/
def extendDeadline (now : Int) (m : MilestoneState) (newDeadline : Int) :
    Except ExtendError MilestoneState :=
  if 3 ≤ m.extensionCount then Except.error ExtendError.deadlineExtensionsExhausted
  else if m.deadline ≤ now then Except.error ExtendError.deadlineAlreadyPassed
  else if newDeadline ≤ m.deadline then Except.error ExtendError.newDeadlineNotLater
  else Except.ok { deadline := newDeadline, extensionCount := m.extensionCount + 1 }

/-- C7: a successful extension is forward-only, happens while the current
deadline is still in the future, and leaves the extension count at most 3;
an attempt on a milestone that has already used its 3 extensions (the 4th
attempt) fails with the deadline-extension-exhausted condition. -/
theorem extendDeadline_bounded (now : Int) (m : MilestoneState) (newDeadline : Int) :
    (∀ m', extendDeadline now m newDeadline = Except.ok m' →
      m'.extensionCount = m.extensionCount + 1 ∧ m'.extensionCount ≤ 3 ∧
        m.deadline < newDeadline ∧ now < m.deadline) ∧
    (3 ≤ m.extensionCount →
      extendDeadline now m newDeadline =
        Except.error ExtendError.deadlineExtensionsExhausted) := by
  constructor
  · intro m' h
    unfold extendDeadline at h
    split_ifs at h with h1 h2 h3 <;> cases h
    refine ⟨rfl, ?_, by omega, by omega⟩
    show m.extensionCount + 1 ≤ 3
    omega
  · intro h3
    unfold extendDeadline
    rw [if_pos h3]

/-- Witness for C7: a milestone with 3 used extensions rejects the 4th
attempt as exhausted, and a fresh extension stays within the bound. -/
theorem extendDeadline_bounded_witness :
    extendDeadline 0 (MilestoneState.mk 100 3) 200 =
      Except.error ExtendError.deadlineExtensionsExhausted ∧
    (MilestoneState.mk 200 1).extensionCount ≤ 3 :=
  ⟨(extendDeadline_bounded 0 (MilestoneState.mk 100 3) 200).2 (by decide),
   ((extendDeadline_bounded 0 (MilestoneState.mk 100 0) 200).1
     (MilestoneState.mk 200 1) rfl).2.1⟩

/-! ## Error taxonomy (src/src/errors/index.ts) -/

/-- The eight error categories of the taxonomy, in source order. -/
inductive ErrCategory where
  | stateTransition
  | authorization
  | investment
  | milestone
  | tokenGeneration
  | pivot
  | refund
  | scamReport
deriving DecidableEq, Repr, Fintype

/-- The reserved code range of each category (inclusive bounds), from the
source comments in src/src/errors/index.ts and the Error Code Categories
table of the README (src/unnamed/part_000). -/
def categoryRange : ErrCategory → Nat × Nat
  | .stateTransition => (6000, 6099)
  | .authorization => (6100, 6199)
  | .investment => (6200, 6299)
  | .milestone => (6300, 6399)
  | .tokenGeneration => (6400, 6499)
  | .pivot => (6500, 6599)
  | .refund => (6800, 6899)
  | .scamReport => (6900, 6999)

/-- ERROR_CODES: every named error code with the category its source
section assigns it. -/
def ERROR_CODES : List (ErrCategory × Nat) :=
  [(.stateTransition, 6000), (.stateTransition, 6001), (.stateTransition, 6002),
   (.stateTransition, 6003), (.stateTransition, 6004), (.stateTransition, 6005),
   (.stateTransition, 6006), (.stateTransition, 6007), (.stateTransition, 6008),
   (.stateTransition, 6009),
   (.authorization, 6100), (.authorization, 6101), (.authorization, 6102),
   (.authorization, 6103),
   (.investment, 6200), (.investment, 6201), (.investment, 6202),
   (.investment, 6203), (.investment, 6204),
   (.milestone, 6300), (.milestone, 6301), (.milestone, 6302),
   (.milestone, 6303), (.milestone, 6304),
   (.tokenGeneration, 6400), (.tokenGeneration, 6401), (.tokenGeneration, 6402),
   (.tokenGeneration, 6403), (.tokenGeneration, 6404), (.tokenGeneration, 6405),
   (.tokenGeneration, 6406),
   (.pivot, 6500), (.pivot, 6501), (.pivot, 6502), (.pivot, 6503),
   (.pivot, 6504), (.pivot, 6505),
   (.refund, 6800), (.refund, 6801), (.refund, 6802),
   (.scamReport, 6900), (.scamReport, 6901), (.scamReport, 6902),
   (.scamReport, 6903), (.scamReport, 6904)]

/-- A code lies within its category's reserved range. -/
def codeInRange (p : ErrCategory × Nat) : Bool :=
  decide ((categoryRange p.1).1 ≤ p.2) && decide (p.2 ≤ (categoryRange p.1).2)

/-- Two distinct categories have non-overlapping ranges. -/
def rangesSeparated (c1 c2 : ErrCategory) : Bool :=
  c1 == c2 || decide ((categoryRange c1).2 < (categoryRange c2).1) ||
    decide ((categoryRange c2).2 < (categoryRange c1).1)

/-- C9: every named error code lies within its category's reserved range,
and the eight reserved ranges are pairwise non-overlapping, so each code
belongs to exactly one category. -/
theorem errorCodes_taxonomy :
    ERROR_CODES.all codeInRange = true ∧
    (∀ c1 c2 : ErrCategory, rangesSeparated c1 c2 = true) := by
  constructor
  · decide
  · decide

end Raise
